import Mathlib

/-!
Verification development for the ZkPrimeCore client SDK.

The TypeScript sources are shallowly embedded as executable Lean
definitions.  Byte arrays (Uint8Array, Buffer) and JavaScript strings are
both modelled as `List Nat` (one element per byte / UTF-8 code unit).
External library primitives that the SDK merely wraps (Node crypto
SHA-256, AES-256-GCM, base64 transcoding, JSON.stringify / JSON.parse)
are modelled as concrete executable functions that satisfy the interface
contracts the SDK relies on (determinism, fixed digest width,
encode/decode inversion, authenticated-encryption success and failure);
their internal bit-level behaviour is not part of this repository and is
not modelled.  Effectful inputs (the random GCM nonce, Date.now, HTTP
responses, the chain-submission helper) are passed as explicit
parameters, and thrown JavaScript errors become `Except ZkError`.
-/

/-- Error taxonomy of src/errors.ts.  Error messages are not modelled;
only the class of a thrown error is. `genericError` stands for a plain
JavaScript `Error` or `TypeError` that is not one of the typed classes. -/
inductive ZkError where
  | configError
  | schemaError
  | cryptoError
  | rpcError
  | notFoundError
  | genericError
  deriving DecidableEq, Repr

/-- Model of the external SHA-256 primitive wrapped by
src/crypto/hashing.ts `sha256`: a deterministic function producing a
fixed 32-byte digest.  The concrete mixing function is a stand-in for the
real compression function, which is library code outside this
repository. -/
def sha256 (data : List Nat) : List Nat :=
  (List.range 32).map (fun i => data.foldl (fun a b => (a * 33 + b + 1) % 256) i)

/-- Hex digit to its ASCII code, as produced by Buffer hex encoding. -/
def hexDigitChar (d : Nat) : Nat :=
  if d < 10 then 48 + d else 87 + d

/-- Embedding of src/crypto/hashing.ts `toHex`: lowercase hex string of a
byte array, two characters per byte. -/
def toHex (bytes : List Nat) : List Nat :=
  bytes.flatMap (fun b => [hexDigitChar (b / 16 % 16), hexDigitChar (b % 16)])

/-- Embedding of src/crypto/hashing.ts `hashCommitment`: hash then hex
encode.  The source accepts a string or bytes and converts strings to
UTF-8 first; both are `List Nat` here. -/
def hashCommitment (data : List Nat) : List Nat :=
  toHex (sha256 data)

/-- Model of Node Buffer base64 encoding: an injective byte-sequence to
character-sequence transcoding with an exact decoder.  The specific
base64 alphabet and 6-bit packing are library internals; only the
transcode/decode inversion is relied on by the SDK. -/
def base64Encode (bytes : List Nat) : List Nat :=
  bytes.map (fun b => b + 65)

/-- Model of Node Buffer base64 decoding, exact inverse of
`base64Encode` on its range. -/
def base64Decode (text : List Nat) : List Nat :=
  text.map (fun c => c - 65)

mutual
/-- JSON-serializable values, the payload domain of JSON.stringify as
used by the SDK (numbers are modelled as integers). -/
inductive Json where
  | null : Json
  | bool (b : Bool) : Json
  | num (n : Int) : Json
  | str (s : List Nat) : Json
  | arr (xs : JsonList) : Json
  | obj (fs : JsonObj) : Json

/-- Lists of JSON values (elements of a JSON array). -/
inductive JsonList where
  | nil : JsonList
  | cons (hd : Json) (tl : JsonList) : JsonList

/-- Ordered key/value members of a JSON object. -/
inductive JsonObj where
  | nil : JsonObj
  | cons (key : List Nat) (val : Json) (tl : JsonObj) : JsonObj
end

deriving instance DecidableEq for Json

deriving instance DecidableEq for Except

/-- Injective encoding of an integer into a single code unit of the
modelled serialization. -/
def encInt (n : Int) : Nat :=
  if 0 ≤ n then 2 * n.toNat else 2 * (-n).toNat - 1

/-- Exact inverse of `encInt`. -/
def decInt (m : Nat) : Int :=
  if m % 2 = 0 then ((m / 2 : Nat) : Int) else -(((m + 1) / 2 : Nat) : Int)

mutual
/-- Model of JSON.stringify composed with UTF-8 encoding: an injective,
prefix-unambiguous serialization of a JSON value into bytes.  The
concrete byte grammar stands in for JSON text, which is produced by the
JavaScript runtime, not by this repository. -/
def encJson : Json → List Nat
  | .null => [0]
  | .bool b => [1, cond b 1 0]
  | .num n => [2, encInt n]
  | .str s => 3 :: s.length :: s
  | .arr xs => 4 :: encJsonList xs
  | .obj fs => 5 :: encJsonObj fs

/-- Serialization of a JSON array body, terminator style. -/
def encJsonList : JsonList → List Nat
  | .nil => [0]
  | .cons h t => 1 :: (encJson h ++ encJsonList t)

/-- Serialization of a JSON object body, terminator style. -/
def encJsonObj : JsonObj → List Nat
  | .nil => [0]
  | .cons k v t => 1 :: k.length :: (k ++ (encJson v ++ encJsonObj t))
end

mutual
/-- Structural size of a JSON value, a fuel bound for the decoder. -/
def jsize : Json → Nat
  | .null => 1
  | .bool _ => 1
  | .num _ => 1
  | .str _ => 1
  | .arr xs => 1 + lsizeJ xs
  | .obj fs => 1 + osizeJ fs

/-- Structural size of a JSON array body. -/
def lsizeJ : JsonList → Nat
  | .nil => 1
  | .cons h t => 1 + jsize h + lsizeJ t

/-- Structural size of a JSON object body. -/
def osizeJ : JsonObj → Nat
  | .nil => 1
  | .cons _ v t => 1 + jsize v + osizeJ t
end

mutual
/-- Fuelled decoder for `encJson`, the model of JSON.parse.  Returns the
decoded value and the unconsumed remainder, or `none` on malformed
input. -/
def decJson : Nat → List Nat → Option (Json × List Nat)
  | 0, _ => none
  | _ + 1, 0 :: r => some (.null, r)
  | _ + 1, 1 :: b :: r => some (.bool (b == 1), r)
  | _ + 1, 2 :: m :: r => some (.num (decInt m), r)
  | _ + 1, 3 :: len :: r =>
      if len ≤ r.length then some (.str (r.take len), r.drop len) else none
  | fuel + 1, 4 :: r =>
      match decJsonList fuel r with
      | some (xs, r1) => some (.arr xs, r1)
      | none => none
  | fuel + 1, 5 :: r =>
      match decJsonObj fuel r with
      | some (fs, r1) => some (.obj fs, r1)
      | none => none
  | _ + 1, _ => none

/-- Fuelled decoder for `encJsonList`. -/
def decJsonList : Nat → List Nat → Option (JsonList × List Nat)
  | 0, _ => none
  | _ + 1, 0 :: r => some (.nil, r)
  | fuel + 1, 1 :: r =>
      match decJson fuel r with
      | some (v, r1) =>
          match decJsonList fuel r1 with
          | some (t, r2) => some (.cons v t, r2)
          | none => none
      | none => none
  | _ + 1, _ => none

/-- Fuelled decoder for `encJsonObj`. -/
def decJsonObj : Nat → List Nat → Option (JsonObj × List Nat)
  | 0, _ => none
  | _ + 1, 0 :: r => some (.nil, r)
  | fuel + 1, 1 :: len :: r =>
      if len ≤ r.length then
        match decJson fuel (r.drop len) with
        | some (v, r1) =>
            match decJsonObj fuel r1 with
            | some (t, r2) => some (.cons (r.take len) v t, r2)
            | none => none
        | none => none
      else none
  | _ + 1, _ => none
end

/-- Model of JSON.parse on a complete byte string: decodes and requires
the whole input to be consumed. -/
def decodeJson (s : List Nat) : Option Json :=
  match decJson s.length s with
  | some (v, []) => some v
  | _ => none

/-- Envelope produced by src/crypto/encryption.ts `encryptPayload`,
mirroring the `EncryptedPayload` interface of src/types.ts. -/
structure EncryptedPayload where
  alg : String
  iv : List Nat
  ciphertext : List Nat
  tag : List Nat
  deriving DecidableEq, Repr

/-- Keystream byte of the modelled AES-256-GCM counter mode, a function
of the key, the nonce and the byte position. -/
def gcmPad (key iv : List Nat) (i : Nat) : Nat :=
  (key ++ iv).foldl (fun a b => (a * 33 + b + 1) % 256) (i + 1)

/-- Byte-wise encryption under the modelled keystream starting at
position `i`. -/
def gcmEncryptFrom (key iv : List Nat) (i : Nat) : List Nat → List Nat
  | [] => []
  | b :: t => (b + gcmPad key iv i + 1) :: gcmEncryptFrom key iv (i + 1) t

/-- Byte-wise decryption, exact inverse of `gcmEncryptFrom`. -/
def gcmDecryptFrom (key iv : List Nat) (i : Nat) : List Nat → List Nat
  | [] => []
  | b :: t => (b - (gcmPad key iv i + 1)) :: gcmDecryptFrom key iv (i + 1) t

/-- Model of the AES-256-GCM encryption pass of Node crypto. -/
def gcmEncrypt (key iv pt : List Nat) : List Nat :=
  gcmEncryptFrom key iv 0 pt

/-- Model of the AES-256-GCM decryption pass of Node crypto. -/
def gcmDecrypt (key iv ct : List Nat) : List Nat :=
  gcmDecryptFrom key iv 0 ct

/-- Model of the GCM authentication tag: an idealized MAC, injective in
the key, nonce and ciphertext jointly, so that verification succeeds
exactly on the authentic triple.  Real GCM admits forgeries only with
negligible probability; the ideal model makes them impossible. -/
def gcmTag (key iv ct : List Nat) : List Nat :=
  key.length :: iv.length :: (key ++ iv ++ ct)

/-- Embedding of src/crypto/encryption.ts `deriveKeyFromSeed`: a single
SHA-256 pass over the seed. -/
def deriveKeyFromSeed (seed : List Nat) : List Nat :=
  sha256 seed

/-- Embedding of src/crypto/encryption.ts `normalizeKey`: a 32-byte
input is taken as the key itself, anything else is hashed down. -/
def normalizeKey (seedOrKey : List Nat) : List Nat :=
  if seedOrKey.length = 32 then seedOrKey else deriveKeyFromSeed seedOrKey

/-- Embedding of src/crypto/encryption.ts `encryptPayload`.  The fresh
random 96-bit nonce drawn inside the source function is passed in as the
explicit parameter `iv`; the `ensureKey` guard becomes the leading length
check (the Uint8Array instance check is enforced by typing). -/
def encryptPayload (data : Json) (key : List Nat) (iv : List Nat) :
    Except ZkError EncryptedPayload :=
  if key.length ≠ 32 then .error .cryptoError
  else
    let json := encJson data
    let ciphertext := gcmEncrypt key iv json
    .ok { alg := "AES-GCM", iv := iv, ciphertext := ciphertext,
          tag := gcmTag key iv ciphertext }

/-- Embedding of src/crypto/encryption.ts `decryptPayload`: key-length
guard, algorithm-tag guard, then authenticated decryption and JSON
parsing; every failure inside the try block is rethrown as a
CryptoError. -/
def decryptPayload (payload : EncryptedPayload) (key : List Nat) :
    Except ZkError Json :=
  if key.length ≠ 32 then .error .cryptoError
  else if payload.alg ≠ "AES-GCM" then .error .cryptoError
  else if payload.tag = gcmTag key payload.iv payload.ciphertext then
    match decodeJson (gcmDecrypt key payload.iv payload.ciphertext) with
    | some v => .ok v
    | none => .error .cryptoError
  else .error .cryptoError

/-- Lookup in a JavaScript `Map` keyed by strings, modelled as an
association list in insertion order. -/
def mapGet {α : Type} : List (List Nat × α) → List Nat → Option α
  | [], _ => none
  | (k, v) :: t, key => if k = key then some v else mapGet t key

/-- Insertion into a JavaScript `Map`: replaces an existing binding in
place, otherwise appends. -/
def mapSet {α : Type} : List (List Nat × α) → List Nat → α → List (List Nat × α)
  | [], key, v => [(key, v)]
  | (k, w) :: t, key, v =>
      if k = key then (key, v) :: t else (k, w) :: mapSet t key v

/-- Embedding of the `ZkPrimeConfig` interface of src/types.ts.  Absent
optional fields are `none`; a JavaScript falsy check on a field is a
`none` test here. -/
structure ZkPrimeConfig where
  rpcEndpoint : List Nat
  programId : Option (List Nat) := none
  computeProgramId : Option (List Nat) := none
  provingServiceUrl : Option (List Nat) := none
  deriving DecidableEq, Repr

/-- Embedding of the `WalletAdapter` capability of src/types.ts; only
the presence of the adapter and its public key matter to the embedded
control flow. -/
structure WalletAdapter where
  publicKey : Option (List Nat)
  deriving DecidableEq, Repr

/-- Job status enumeration of the confidential compute client. -/
inductive JobStatus where
  | PENDING
  | RUNNING
  | COMPLETED
  | FAILED
  deriving DecidableEq, Repr

/-- Embedding of the `JobDefinition` interface (schema metadata fields
that the client logic never reads are kept as opaque options). -/
structure JobDefinition where
  name : List Nat
  version : Option (List Nat) := none
  description : Option (List Nat) := none
  deriving DecidableEq, Repr

/-- Embedding of the `JobRecord` interface of the confidential compute
client. -/
structure JobRecord where
  id : List Nat
  owner : List Nat
  jobType : List Nat
  commitment : List Nat
  status : JobStatus
  createdAt : Nat
  resultRef : Option (List Nat) := none
  deriving DecidableEq, Repr

/-- Instance state of `ConfidentialComputeClient`: the immutable config
plus the two in-memory maps. -/
structure ConfidentialComputeClient where
  config : ZkPrimeConfig
  registry : List (List Nat × JobDefinition) := []
  mockJobs : List (List Nat × JobRecord) := []
  deriving DecidableEq, Repr

/-- Embedding of `ConfidentialComputeClient.registerJobType`: requires a
non-empty name (plain `Error` otherwise), stores by name with overwrite
semantics, and returns the definition. -/
def registerJobType (st : ConfidentialComputeClient) (def' : JobDefinition) :
    Except ZkError (ConfidentialComputeClient × JobDefinition) :=
  if def'.name = [] then .error .genericError
  else .ok ({ st with registry := mapSet st.registry def'.name def' }, def')

/-- Outcome of the conditional on-chain block of `submitJob`: the
`buildAndSendTransaction` helper runs only when both a compute program id
and a wallet adapter are present, its failure propagates, and its
signature is captured; otherwise no transaction signature is produced. -/
def chainTxResult (computeProgramId : Option (List Nat))
    (walletAdapter : Option WalletAdapter)
    (chainSend : Except ZkError (List Nat)) :
    Except ZkError (Option (List Nat)) :=
  match computeProgramId, walletAdapter with
  | some _, some _ =>
      match chainSend with
      | .ok sig => .ok (some sig)
      | .error e => .error e
  | _, _ => .ok none

/-- Outcome of the conditional on-chain block of `createState` and
`updateState`: the instruction is sent only when both a program id and a
wallet adapter are present, and its failure propagates. -/
def chainCallResult (programId : Option (List Nat))
    (walletAdapter : Option WalletAdapter)
    (chainSend : Except ZkError (List Nat)) : Except ZkError Unit :=
  match programId, walletAdapter with
  | some _, some _ =>
      match chainSend with
      | .ok _ => .ok ()
      | .error e => .error e
  | _, _ => .ok ()

/-- Parameters of `submitJob`. -/
structure SubmitJobParams where
  jobType : List Nat
  owner : List Nat
  input : Json
  symmetricKeySeed : List Nat

/-- Result of `submitJob`. -/
structure SubmitJobResult where
  jobId : List Nat
  txSig : Option (List Nat)
  deriving DecidableEq, Repr

/-- Embedding of `ConfidentialComputeClient.submitJob`.  The random GCM
nonce is `iv`, Date.now is `now`, and the outcome of the on-chain
`buildAndSendTransaction` helper (external code) is the oracle
`chainSend`; the helper only runs when both a compute program id and a
wallet adapter are supplied, and its failure propagates.  The best-effort
coordinator POST swallows every network outcome, so it needs no oracle;
when no coordinator is configured the job is recorded in the mock store
with status PENDING. -/
def submitJob (st : ConfidentialComputeClient) (params : SubmitJobParams)
    (iv : List Nat) (now : Nat) (walletAdapter : Option WalletAdapter)
    (chainSend : Except ZkError (List Nat)) :
    Except ZkError (ConfidentialComputeClient × SubmitJobResult) :=
  match mapGet st.registry params.jobType with
  | none => .error .notFoundError
  | some _ =>
    let key := normalizeKey params.symmetricKeySeed
    match encryptPayload params.input key iv with
    | .error e => .error e
    | .ok encrypted =>
      let commitment := hashCommitment encrypted.ciphertext
      let jobId := (hashCommitment (commitment ++ params.owner)).take 32
      match chainTxResult st.config.computeProgramId walletAdapter chainSend with
      | .error e => .error e
      | .ok txSig =>
        match st.config.provingServiceUrl with
        | some _ => .ok (st, { jobId := jobId, txSig := txSig })
        | none =>
          let record : JobRecord :=
            { id := jobId, owner := params.owner, jobType := params.jobType,
              commitment := commitment, status := .PENDING, createdAt := now,
              resultRef := none }
          .ok ({ st with mockJobs := mapSet st.mockJobs jobId record },
               { jobId := jobId, txSig := txSig })

/-- Outcome of an HTTP fetch as observed by the client: a rejected fetch
or unparsable body, a response with `resp.ok` false, or a parsed JSON
body. -/
inductive HttpResult (α : Type) where
  | netErr : HttpResult α
  | notOk : HttpResult α
  | ok (body : α) : HttpResult α

/-- Parsed body of the coordinator job-status endpoint; `none` models a
missing or falsy `status` field. -/
structure StatusBody where
  status : Option JobStatus

/-- Embedding of `ConfidentialComputeClient.getJobStatus`: the
coordinator is queried first when configured, any coordinator failure
falls back silently to the mock store, a falsy status field in a
successful body defaults to PENDING, and a job in neither place is
NotFoundError. -/
def getJobStatus (st : ConfidentialComputeClient) (jobId : List Nat)
    (coordResp : HttpResult StatusBody) : Except ZkError JobStatus :=
  let fromMock : Except ZkError JobStatus :=
    match mapGet st.mockJobs jobId with
    | some job => .ok job.status
    | none => .error .notFoundError
  match st.config.provingServiceUrl with
  | some _ =>
      match coordResp with
      | .ok body =>
          match body.status with
          | some s => .ok s
          | none => .ok .PENDING
      | .notOk => fromMock
      | .netErr => fromMock
  | none => fromMock

/-- Parsed body of the coordinator job-result endpoint: base64 texts for
iv, ciphertext and tag. -/
structure ResultBody where
  iv : List Nat
  ciphertext : List Nat
  tag : List Nat

/-- Character codes of the string "iv". -/
def keyIv : List Nat := [105, 118]

/-- Character codes of the string "tag". -/
def keyTag : List Nat := [116, 97, 103]

/-- Character codes of the string "ciphertext". -/
def keyCiphertext : List Nat := [99, 105, 112, 104, 101, 114, 116, 101, 120, 116]

/-- First binding of a key in a decoded JSON object. -/
def objGet : JsonObj → List Nat → Option Json
  | .nil, _ => none
  | .cons k v t, key => if k = key then some v else objGet t key

/-- Property access expecting a JSON string, as used on the parsed mock
result payload. -/
def jStr? (j : Option Json) : Option (List Nat) :=
  match j with
  | some (.str s) => some s
  | _ => none

/-- Embedding of `ConfidentialComputeClient.fetchResult`.  On the
coordinator path the fetched body is the oracle `coordResp`; a non-ok
response is NotFoundError, a rejected fetch propagates untyped, and the
decoded envelope is decrypted under `normalizeKey seed`.  On the mock
path the stored `resultRef` is base64-decoded, JSON-parsed (a parse
failure propagates untyped), the `iv` field falls back to the empty
string when falsy, a missing or non-string ciphertext or tag field
throws untyped, and the rebuilt envelope is decrypted under
`deriveKeyFromSeed seed`. -/
def fetchResult (st : ConfidentialComputeClient) (jobId : List Nat)
    (symmetricKeySeed : List Nat) (coordResp : HttpResult ResultBody) :
    Except ZkError Json :=
  match st.config.provingServiceUrl with
  | some _ =>
      match coordResp with
      | .ok body =>
          let payload : EncryptedPayload :=
            { alg := "AES-GCM", iv := base64Decode body.iv,
              ciphertext := base64Decode body.ciphertext,
              tag := base64Decode body.tag }
          decryptPayload payload (normalizeKey symmetricKeySeed)
      | .notOk => .error .notFoundError
      | .netErr => .error .genericError
  | none =>
      match mapGet st.mockJobs jobId with
      | none => .error .notFoundError
      | some job =>
        match job.resultRef with
        | none => .error .notFoundError
        | some ref =>
          match decodeJson (base64Decode ref) with
          | none => .error .genericError
          | some payload =>
            let fields := match payload with | .obj fs => fs | _ => .nil
            let ivText := (jStr? (objGet fields keyIv)).getD []
            match jStr? (objGet fields keyCiphertext),
                  jStr? (objGet fields keyTag) with
            | some ctText, some tagText =>
                let ep : EncryptedPayload :=
                  { alg := "AES-GCM", iv := base64Decode ivText,
                    ciphertext := base64Decode ctText,
                    tag := base64Decode tagText }
                decryptPayload ep (deriveKeyFromSeed symmetricKeySeed)
            | _, _ => .error .genericError

/-- Serialized mock result payload written by `_setMockResult`: a JSON
object with base64 fields iv, tag, ciphertext, in source order. -/
def resultRefPayload (ep : EncryptedPayload) : Json :=
  .obj (.cons keyIv (.str (base64Encode ep.iv))
       (.cons keyTag (.str (base64Encode ep.tag))
       (.cons keyCiphertext (.str (base64Encode ep.ciphertext)) .nil)))

/-- Embedding of the test-only `ConfidentialComputeClient._setMockResult`:
requires an existing mock record, stores the base64-encoded serialized
payload in `resultRef` and force-sets the status to COMPLETED. -/
def setMockResult (st : ConfidentialComputeClient) (jobId : List Nat)
    (encryptedPayload : EncryptedPayload) :
    Except ZkError ConfidentialComputeClient :=
  match mapGet st.mockJobs jobId with
  | none => .error .notFoundError
  | some record =>
    let ref := base64Encode (encJson (resultRefPayload encryptedPayload))
    let updated : JobRecord :=
      { record with resultRef := some ref, status := .COMPLETED }
    .ok { st with mockJobs := mapSet st.mockJobs jobId updated }

/-- States of a `ConfidentialComputeClient` instance reachable from a
fresh instance by the state-mutating operations (the read-only
operations `getJobStatus` and `fetchResult` do not change state). -/
inductive CCReach (cfg : ZkPrimeConfig) : ConfidentialComputeClient → Prop where
  | init : CCReach cfg { config := cfg, registry := [], mockJobs := [] }
  | register (st st' : ConfidentialComputeClient) (d d' : JobDefinition) :
      CCReach cfg st → registerJobType st d = .ok (st', d') → CCReach cfg st'
  | submit (st st' : ConfidentialComputeClient) (p : SubmitJobParams)
      (iv : List Nat) (now : Nat) (wa : Option WalletAdapter)
      (chain : Except ZkError (List Nat)) (r : SubmitJobResult) :
      CCReach cfg st → submitJob st p iv now wa chain = .ok (st', r) →
      CCReach cfg st'
  | setResult (st st' : ConfidentialComputeClient) (jobId : List Nat)
      (ep : EncryptedPayload) :
      CCReach cfg st → setMockResult st jobId ep = .ok st' → CCReach cfg st'

/-- Field type tags of a private state schema. -/
inductive FieldType where
  | u64
  | string
  | bytes
  | boolean
  deriving DecidableEq, Repr

/-- Embedding of `SchemaField` of src/privateState/privateStateClient.ts. -/
structure SchemaField where
  name : List Nat
  type : FieldType
  deriving DecidableEq, Repr

/-- Embedding of the `PrivateSchema` interface. -/
structure PrivateSchema where
  id : List Nat
  name : List Nat
  fields : List SchemaField
  deriving DecidableEq, Repr

/-- Instance state of `PrivateStateClient`: immutable config plus the
local schema registry. -/
structure PrivateStateClient where
  config : ZkPrimeConfig
  schemaRegistry : List (List Nat × PrivateSchema) := []
  deriving DecidableEq, Repr

/-- Embedding of `PrivateStateClient.defineSchema`: validates id, name
and a non-empty field list (SchemaError otherwise) and stores by id with
overwrite semantics. -/
def defineSchema (st : PrivateStateClient) (schema : PrivateSchema) :
    Except ZkError (PrivateStateClient × PrivateSchema) :=
  if schema.id = [] ∨ schema.name = [] ∨ schema.fields = [] then
    .error .schemaError
  else
    .ok ({ st with schemaRegistry := mapSet st.schemaRegistry schema.id schema },
         schema)

/-- Embedding of `PrivateStateClient.getSchema`. -/
def getSchema (st : PrivateStateClient) (schemaId : List Nat) :
    Except ZkError PrivateSchema :=
  match mapGet st.schemaRegistry schemaId with
  | some s => .ok s
  | none => .error .notFoundError

/-- Parameters of `createState`. -/
structure CreateStateParams where
  schemaId : List Nat
  owner : List Nat
  data : Json
  symmetricKeySeed : List Nat

/-- Embedding of the `StateHandle` interface of src/types.ts. -/
structure StateHandle where
  id : List Nat
  commitment : List Nat
  owner : List Nat
  deriving DecidableEq, Repr

/-- Embedding of `PrivateStateClient.createState`: schema lookup, key
normalization, encryption (fresh nonce passed as `iv`), commitment of the
ciphertext, an optional on-chain instruction whose failure propagates
(oracle `chainSend`, run only when both a program id and a wallet adapter
are present), and local derivation of the state id. -/
def createState (st : PrivateStateClient) (params : CreateStateParams)
    (iv : List Nat) (walletAdapter : Option WalletAdapter)
    (chainSend : Except ZkError (List Nat)) :
    Except ZkError (StateHandle × EncryptedPayload) :=
  match mapGet st.schemaRegistry params.schemaId with
  | none => .error .notFoundError
  | some _ =>
    let key := normalizeKey params.symmetricKeySeed
    match encryptPayload params.data key iv with
    | .error e => .error e
    | .ok encrypted =>
      let commitment := hashCommitment encrypted.ciphertext
      match chainCallResult st.config.programId walletAdapter chainSend with
      | .error e => .error e
      | .ok _ =>
        let stateId := (hashCommitment (commitment ++ params.owner)).take 32
        .ok ({ id := stateId, commitment := commitment, owner := params.owner },
             encrypted)

/-- Parameters of `updateState`; `stateId` is optional to reflect the
defensive nullish fallback in the source. -/
structure UpdateStateParams where
  schemaId : List Nat
  owner : List Nat
  data : Json
  symmetricKeySeed : List Nat
  stateId : Option (List Nat)
  previousCommitment : List Nat

/-- Embedding of `PrivateStateClient.updateState`: schema existence
check, re-encryption, new commitment, optional on-chain update whose
failure propagates, and a handle whose id is the supplied state id or,
failing that, a freshly derived one. -/
def updateState (st : PrivateStateClient) (params : UpdateStateParams)
    (iv : List Nat) (walletAdapter : Option WalletAdapter)
    (chainSend : Except ZkError (List Nat)) :
    Except ZkError (StateHandle × EncryptedPayload) :=
  match mapGet st.schemaRegistry params.schemaId with
  | none => .error .notFoundError
  | some _ =>
    let key := normalizeKey params.symmetricKeySeed
    match encryptPayload params.data key iv with
    | .error e => .error e
    | .ok encrypted =>
      let newCommitment := hashCommitment encrypted.ciphertext
      match chainCallResult st.config.programId walletAdapter chainSend with
      | .error e => .error e
      | .ok _ =>
        let hid := params.stateId.getD
          ((hashCommitment (newCommitment ++ params.owner)).take 32)
        .ok ({ id := hid, commitment := newCommitment, owner := params.owner },
             encrypted)

/-- Embedding of `PrivateStateClient.getStateCommitment`: the placeholder
returns null when no program id is configured, and also returns null
(after obtaining a connection) when one is configured, since the
on-chain lookup is not implemented. -/
def getStateCommitment (st : PrivateStateClient) (stateId : List Nat) :
    Except ZkError (Option (List Nat)) :=
  match st.config.programId with
  | none => .ok none
  | some _ => .ok none

/-- Embedding of `PrivateStateClient.decryptWithSeed`: normalize then
decrypt. -/
def decryptWithSeed (st : PrivateStateClient) (encrypted : EncryptedPayload)
    (seedOrKey : List Nat) : Except ZkError Json :=
  decryptPayload encrypted (normalizeKey seedOrKey)

/-- Alteration of a byte string by flipping bit `k` of the byte at
position `i` (the tampering operation of the testable property on
envelope integrity). -/
def flipBit (l : List Nat) (i k : Nat) : List Nat :=
  l.set i (l.getD i 0 ^^^ 2 ^ k)

/-! Concrete example values used to evaluate the verified statements on
closed inputs.  Strings are spelled as character-code lists: [114] is
"r", [97] is "a", [111] is "o", [117] is "u", [115] is "s", [106] is
"j", [110] is "n", [102] is "f", [120] is "x". -/

/-- Example configuration with no coordinator and no program ids. -/
def exCfg : ZkPrimeConfig := { rpcEndpoint := [114] }

/-- Example job definition named "a". -/
def exJd : JobDefinition := { name := [97] }

/-- Example confidential compute client with the job type "a"
registered and an empty mock store. -/
def exClient : ConfidentialComputeClient :=
  { config := exCfg, registry := [([97], exJd)], mockJobs := [] }

/-- Example confidential compute client with nothing registered. -/
def exEmptyClient : ConfidentialComputeClient := { config := exCfg }

/-- Example submit parameters: job type "a", owner "o", null input,
empty seed. -/
def exParams : SubmitJobParams :=
  { jobType := [97], owner := [111], input := Json.null,
    symmetricKeySeed := [] }

/-- Example 32-byte key (all zero bytes). -/
def exKey : List Nat := List.replicate 32 0

/-- Example nonce. -/
def exIv : List Nat := [7]

/-- Example envelope: the encryption of null under `exKey` with nonce
`exIv`. -/
def exEnvelope : EncryptedPayload :=
  { alg := "AES-GCM", iv := exIv,
    ciphertext := gcmEncrypt exKey exIv (encJson Json.null),
    tag := gcmTag exKey exIv (gcmEncrypt exKey exIv (encJson Json.null)) }

/-- Commitment of the ciphertext produced by the example submission. -/
def exCommitment : List Nat :=
  hashCommitment (gcmEncrypt (normalizeKey []) [] (encJson Json.null))

/-- Job id derived by the example submission. -/
def exJobId : List Nat :=
  (hashCommitment (exCommitment ++ [111])).take 32

/-- Mock job record created by the example submission. -/
def exRecord : JobRecord :=
  { id := exJobId, owner := [111], jobType := [97],
    commitment := exCommitment, status := .PENDING, createdAt := 0,
    resultRef := none }

/-- Client state after the example submission. -/
def exState1 : ConfidentialComputeClient :=
  { exClient with mockJobs := mapSet [] exJobId exRecord }

/-- Example result envelope: the number 3 encrypted under the mock-path
key derived from the empty seed. -/
def exResultEp : EncryptedPayload :=
  { alg := "AES-GCM", iv := [8],
    ciphertext := gcmEncrypt (deriveKeyFromSeed []) [8] (encJson (Json.num 3)),
    tag := gcmTag (deriveKeyFromSeed []) [8]
      (gcmEncrypt (deriveKeyFromSeed []) [8] (encJson (Json.num 3))) }

/-- Client state after the test-only mock-result setter ran on the
example submission. -/
def exState2 : ConfidentialComputeClient :=
  let updated : JobRecord :=
    { exRecord with
        resultRef := some (base64Encode (encJson (resultRefPayload exResultEp))),
        status := .COMPLETED }
  { exState1 with mockJobs := mapSet exState1.mockJobs exJobId updated }

/-- Example coordinator-configured client (coordinator URL "u"). -/
def exCoordClient : ConfidentialComputeClient :=
  { config := { rpcEndpoint := [114], provingServiceUrl := some [117] } }

/-- Example mock record holding the serialized example envelope as its
result, under job id "j". -/
def exRec3 : JobRecord :=
  { id := [106], owner := [111], jobType := [97], commitment := [],
    status := .COMPLETED, createdAt := 0,
    resultRef := some (base64Encode (encJson (resultRefPayload exEnvelope))) }

/-- Example mock-path client whose store holds `exRec3`. -/
def exMockClient : ConfidentialComputeClient :=
  { config := exCfg, mockJobs := [([106], exRec3)] }

/-- Example private state client with no schemas. -/
def exPsClient : PrivateStateClient := { config := exCfg }

/-- Example schema with id "s". -/
def exSchema : PrivateSchema :=
  { id := [115], name := [110], fields := [{ name := [102], type := .u64 }] }

/-- Example private state client with `exSchema` registered. -/
def exPsClient2 : PrivateStateClient :=
  { config := exCfg, schemaRegistry := [([115], exSchema)] }

/-- Example create-state parameters. -/
def exCreateParams : CreateStateParams :=
  { schemaId := [115], owner := [111], data := Json.null,
    symmetricKeySeed := [] }

/-- Handle returned by the example create-state call. -/
def exHandle : StateHandle :=
  { id := (hashCommitment (exCommitment ++ [111])).take 32,
    commitment := exCommitment, owner := [111] }

/-- Envelope returned by the example create-state call. -/
def exEnvelope2 : EncryptedPayload :=
  { alg := "AES-GCM", iv := [],
    ciphertext := gcmEncrypt (normalizeKey []) [] (encJson Json.null),
    tag := gcmTag (normalizeKey []) []
      (gcmEncrypt (normalizeKey []) [] (encJson Json.null)) }

/-! Helper lemmas about the modelled primitives. -/

theorem decInt_encInt (n : Int) : decInt (encInt n) = n := by
  unfold encInt decInt
  by_cases h : 0 ≤ n
  · rw [if_pos h]
    have h2 : (2 * n.toNat) % 2 = 0 := by omega
    rw [if_pos h2]
    omega
  · rw [if_neg h]
    have h1 : 0 < (-n).toNat := by omega
    have h2 : ¬((2 * (-n).toNat - 1) % 2 = 0) := by omega
    rw [if_neg h2]
    omega

theorem base64Decode_base64Encode (l : List Nat) :
    base64Decode (base64Encode l) = l := by
  simp only [base64Decode, base64Encode, List.map_map]
  exact List.map_id'' (fun x => by simp [Function.comp]) l

theorem sha256_length (d : List Nat) : (sha256 d).length = 32 := by
  simp [sha256]

theorem deriveKeyFromSeed_length (s : List Nat) :
    (deriveKeyFromSeed s).length = 32 :=
  sha256_length s

theorem normalizeKey_length (s : List Nat) : (normalizeKey s).length = 32 := by
  unfold normalizeKey
  by_cases h : s.length = 32
  · rw [if_pos h]; exact h
  · rw [if_neg h]; exact deriveKeyFromSeed_length s

theorem gcmDecryptFrom_gcmEncryptFrom (key iv : List Nat) :
    ∀ (pt : List Nat) (i : Nat),
      gcmDecryptFrom key iv i (gcmEncryptFrom key iv i pt) = pt
  | [], _ => rfl
  | b :: t, i => by
      simp [gcmEncryptFrom, gcmDecryptFrom,
            gcmDecryptFrom_gcmEncryptFrom key iv t (i + 1)]

theorem gcmDecrypt_gcmEncrypt (key iv pt : List Nat) :
    gcmDecrypt key iv (gcmEncrypt key iv pt) = pt :=
  gcmDecryptFrom_gcmEncryptFrom key iv pt 0

theorem gcmTag_inj {k1 i1 c1 k2 i2 c2 : List Nat}
    (h : gcmTag k1 i1 c1 = gcmTag k2 i2 c2) : k1 = k2 ∧ i1 = i2 ∧ c1 = c2 := by
  unfold gcmTag at h
  injection h with h1 h2
  injection h2 with h3 h4
  rw [List.append_assoc, List.append_assoc] at h4
  obtain ⟨hk, hic⟩ := List.append_inj h4 h1
  obtain ⟨hi, hc⟩ := List.append_inj hic h3
  exact ⟨hk, hi, hc⟩

theorem mapGet_mapSet_self {α : Type} (m : List (List Nat × α))
    (k : List Nat) (v : α) : mapGet (mapSet m k v) k = some v := by
  induction m with
  | nil => simp [mapGet, mapSet]
  | cons p t ih =>
      obtain ⟨k1, w⟩ := p
      by_cases h : k1 = k
      · simp [mapSet, h, mapGet]
      · simp [mapSet, h, mapGet, ih]

theorem mapGet_mapSet_ne {α : Type} (m : List (List Nat × α))
    (k k' : List Nat) (v : α) (h : k' ≠ k) :
    mapGet (mapSet m k v) k' = mapGet m k' := by
  have hkk : ¬k = k' := fun he => h he.symm
  induction m with
  | nil =>
      simp only [mapSet, mapGet]
      rw [if_neg hkk]
  | cons p t ih =>
      obtain ⟨k1, w⟩ := p
      simp only [mapSet]
      by_cases h1 : k1 = k
      · rw [if_pos h1]
        simp only [mapGet]
        rw [if_neg hkk, if_neg (fun he => hkk (h1.symm.trans he))]
      · rw [if_neg h1]
        simp only [mapGet]
        by_cases h2 : k1 = k'
        · rw [if_pos h2, if_pos h2]
        · rw [if_neg h2, if_neg h2, ih]

mutual
theorem jsize_le_encJson : ∀ v : Json, jsize v ≤ (encJson v).length
  | .null => by simp [jsize, encJson]
  | .bool b => by simp [jsize, encJson]
  | .num n => by simp [jsize, encJson]
  | .str s => by simp [jsize, encJson]
  | .arr xs => by
      have h := lsizeJ_le_encJsonList xs
      simp only [jsize, encJson, List.length_cons]
      omega
  | .obj fs => by
      have h := osizeJ_le_encJsonObj fs
      simp only [jsize, encJson, List.length_cons]
      omega

theorem lsizeJ_le_encJsonList : ∀ xs : JsonList, lsizeJ xs ≤ (encJsonList xs).length
  | .nil => by simp [lsizeJ, encJsonList]
  | .cons hd tl => by
      have h1 := jsize_le_encJson hd
      have h2 := lsizeJ_le_encJsonList tl
      simp only [lsizeJ, encJsonList, List.length_cons, List.length_append]
      omega

theorem osizeJ_le_encJsonObj : ∀ fs : JsonObj, osizeJ fs ≤ (encJsonObj fs).length
  | .nil => by simp [osizeJ, encJsonObj]
  | .cons k v tl => by
      have h1 := jsize_le_encJson v
      have h2 := osizeJ_le_encJsonObj tl
      simp only [osizeJ, encJsonObj, List.length_cons, List.length_append]
      omega
end

mutual
theorem decJson_encJson : ∀ (v : Json) (fuel : Nat) (rest : List Nat),
    jsize v ≤ fuel → decJson fuel (encJson v ++ rest) = some (v, rest)
  | v, 0, rest, h => by
      exfalso
      cases v <;> simp only [jsize] at h <;> omega
  | .null, fuel + 1, rest, h => by simp [encJson, decJson]
  | .bool b, fuel + 1, rest, h => by cases b <;> simp [encJson, decJson]
  | .num n, fuel + 1, rest, h => by simp [encJson, decJson, decInt_encInt]
  | .str s, fuel + 1, rest, h => by
      simp only [encJson, List.cons_append, decJson]
      rw [if_pos (by simp), List.take_left, List.drop_left]
  | .arr xs, fuel + 1, rest, h => by
      have h1 : lsizeJ xs ≤ fuel := by simp only [jsize] at h; omega
      simp only [encJson, List.cons_append, decJson,
                 decJsonList_encJsonList xs fuel rest h1]
  | .obj fs, fuel + 1, rest, h => by
      have h1 : osizeJ fs ≤ fuel := by simp only [jsize] at h; omega
      simp only [encJson, List.cons_append, decJson,
                 decJsonObj_encJsonObj fs fuel rest h1]

theorem decJsonList_encJsonList : ∀ (xs : JsonList) (fuel : Nat) (rest : List Nat),
    lsizeJ xs ≤ fuel → decJsonList fuel (encJsonList xs ++ rest) = some (xs, rest)
  | xs, 0, rest, h => by
      exfalso
      cases xs <;> simp only [lsizeJ] at h <;> omega
  | .nil, fuel + 1, rest, h => by simp [encJsonList, decJsonList]
  | .cons hd tl, fuel + 1, rest, h => by
      have h1 : jsize hd ≤ fuel := by simp only [lsizeJ] at h; omega
      have h2 : lsizeJ tl ≤ fuel := by simp only [lsizeJ] at h; omega
      simp only [encJsonList, List.cons_append, List.append_eq,
                 List.append_assoc, decJsonList]
      rw [decJson_encJson hd fuel (encJsonList tl ++ rest) h1]
      simp [decJsonList_encJsonList tl fuel rest h2]

theorem decJsonObj_encJsonObj : ∀ (fs : JsonObj) (fuel : Nat) (rest : List Nat),
    osizeJ fs ≤ fuel → decJsonObj fuel (encJsonObj fs ++ rest) = some (fs, rest)
  | fs, 0, rest, h => by
      exfalso
      cases fs <;> simp only [osizeJ] at h <;> omega
  | .nil, fuel + 1, rest, h => by simp [encJsonObj, decJsonObj]
  | .cons k v tl, fuel + 1, rest, h => by
      have h1 : jsize v ≤ fuel := by simp only [osizeJ] at h; omega
      have h2 : osizeJ tl ≤ fuel := by simp only [osizeJ] at h; omega
      simp only [encJsonObj, List.cons_append, List.append_eq,
                 List.append_assoc, decJsonObj]
      rw [if_pos (by simp), List.take_left, List.drop_left]
      rw [decJson_encJson v fuel (encJsonObj tl ++ rest) h1]
      simp [decJsonObj_encJsonObj tl fuel rest h2]
end

theorem decodeJson_encJson (v : Json) : decodeJson (encJson v) = some v := by
  unfold decodeJson
  have h := decJson_encJson v (encJson v).length [] (jsize_le_encJson v)
  rw [List.append_nil] at h
  rw [h]

theorem encryptPayload_ok (v : Json) (key iv : List Nat) (h : key.length = 32) :
    encryptPayload v key iv =
      .ok { alg := "AES-GCM", iv := iv,
            ciphertext := gcmEncrypt key iv (encJson v),
            tag := gcmTag key iv (gcmEncrypt key iv (encJson v)) } := by
  unfold encryptPayload
  rw [if_neg (by omega)]

theorem decryptPayload_encryptPayload {v : Json} {key iv : List Nat}
    {ep : EncryptedPayload} (h : key.length = 32)
    (he : encryptPayload v key iv = .ok ep) :
    decryptPayload ep key = .ok v := by
  rw [encryptPayload_ok v key iv h] at he
  injection he with he1
  subst he1
  unfold decryptPayload
  rw [if_neg (by omega), if_neg (by simp)]
  simp [gcmDecrypt_gcmEncrypt, decodeJson_encJson]

theorem xor_two_pow_ne (a k : Nat) : a ^^^ 2 ^ k ≠ a := by
  intro h
  have hk : 0 < 2 ^ k := Nat.two_pow_pos k
  have h0 : 2 ^ k = 0 := by
    calc 2 ^ k = a ^^^ (a ^^^ 2 ^ k) := by
          rw [← Nat.xor_assoc, Nat.xor_self, Nat.zero_xor]
      _ = a ^^^ a := by rw [h]
      _ = 0 := Nat.xor_self a
  omega

theorem getD_set_self : ∀ (l : List Nat) (i x : Nat), i < l.length →
    (l.set i x).getD i 0 = x
  | [], i, x, h => by simp at h
  | a :: t, 0, x, _ => rfl
  | a :: t, i + 1, x, h =>
      getD_set_self t i x (by simp only [List.length_cons] at h; omega)

theorem flipBit_ne (l : List Nat) (i k : Nat) (h : i < l.length) :
    flipBit l i k ≠ l := by
  intro hEq
  have h1 : (flipBit l i k).getD i 0 = l.getD i 0 ^^^ 2 ^ k :=
    getD_set_self l i _ h
  rw [hEq] at h1
  exact xor_two_pow_ne (l.getD i 0) k h1.symm

theorem flipBit_length (l : List Nat) (i k : Nat) :
    (flipBit l i k).length = l.length := by
  simp [flipBit]

theorem decryptPayload_badTag {ep : EncryptedPayload} {key : List Nat}
    (hk : key.length = 32) (halg : ep.alg = "AES-GCM")
    (hne : ep.tag ≠ gcmTag key ep.iv ep.ciphertext) :
    decryptPayload ep key = .error .cryptoError := by
  unfold decryptPayload
  rw [if_neg (by omega), if_neg (by simp [halg]), if_neg hne]

/-! Claim theorems. -/

/-- C1: for every 32-byte key K, every JSON-serializable value V and
every nonce the runtime may draw, decrypting the encryption of V under K
with the same key K recovers exactly V. -/
theorem c1_encrypt_decrypt_roundtrip (v : Json) (key iv : List Nat)
    (h : key.length = 32) :
    (encryptPayload v key iv).bind (fun ep => decryptPayload ep key) =
      .ok v := by
  rw [encryptPayload_ok v key iv h]
  exact decryptPayload_encryptPayload h (encryptPayload_ok v key iv h)

/-- Witness for C1 at the all-zero 32-byte key, the value 7 and nonce
[9]. -/
theorem c1_encrypt_decrypt_roundtrip_witness :
    (List.replicate 32 0 : List Nat).length = 32 ∧
    (encryptPayload (Json.num 7) (List.replicate 32 0) [9]).bind
      (fun ep => decryptPayload ep (List.replicate 32 0)) =
        .ok (Json.num 7) :=
  ⟨by decide,
   c1_encrypt_decrypt_roundtrip (Json.num 7) (List.replicate 32 0) [9]
     (by decide)⟩

/-- C4: encryptPayload fails with a CryptoError whenever the key length
is not 32; decryptPayload fails with a CryptoError whenever the key
length is not 32, whenever the algorithm tag is not the AEAD tag, and
whenever the tag, nonce or ciphertext of a well-formed envelope is
altered by flipping a single bit; on the unaltered envelope with the
correct key neither operation errors. -/
theorem c4_crypto_error_conditions :
    (∀ (v : Json) (key iv : List Nat), key.length ≠ 32 →
       encryptPayload v key iv = .error .cryptoError) ∧
    (∀ (p : EncryptedPayload) (key : List Nat), key.length ≠ 32 →
       decryptPayload p key = .error .cryptoError) ∧
    (∀ (p : EncryptedPayload) (key : List Nat), p.alg ≠ "AES-GCM" →
       decryptPayload p key = .error .cryptoError) ∧
    (∀ (v : Json) (key iv : List Nat) (ep : EncryptedPayload) (i k : Nat),
       key.length = 32 → encryptPayload v key iv = .ok ep →
       (i < ep.tag.length →
          decryptPayload { ep with tag := flipBit ep.tag i k } key =
            .error .cryptoError) ∧
       (i < ep.iv.length →
          decryptPayload { ep with iv := flipBit ep.iv i k } key =
            .error .cryptoError) ∧
       (i < ep.ciphertext.length →
          decryptPayload { ep with ciphertext := flipBit ep.ciphertext i k } key =
            .error .cryptoError)) ∧
    (∀ (v : Json) (key iv : List Nat) (ep : EncryptedPayload),
       key.length = 32 → encryptPayload v key iv = .ok ep →
       decryptPayload ep key = .ok v) := by
  refine ⟨?_, ?_, ?_, ?_, ?_⟩
  · intro v key iv h
    unfold encryptPayload
    rw [if_pos h]
  · intro p key h
    unfold decryptPayload
    rw [if_pos h]
  · intro p key halg
    unfold decryptPayload
    by_cases hk : key.length ≠ 32
    · rw [if_pos hk]
    · rw [if_neg hk, if_pos halg]
  · intro v key iv ep i k hk he
    rw [encryptPayload_ok v key iv hk] at he
    injection he with he1
    subst he1
    refine ⟨?_, ?_, ?_⟩
    · intro hi
      apply decryptPayload_badTag hk rfl
      simpa using
        flipBit_ne (gcmTag key iv (gcmEncrypt key iv (encJson v))) i k
          (by simpa using hi)
    · intro hi
      apply decryptPayload_badTag hk rfl
      intro hEq
      obtain ⟨-, hiv, -⟩ := gcmTag_inj hEq
      exact flipBit_ne iv i k (by simpa using hi) hiv.symm
    · intro hi
      apply decryptPayload_badTag hk rfl
      intro hEq
      obtain ⟨-, -, hct⟩ := gcmTag_inj hEq
      exact flipBit_ne (gcmEncrypt key iv (encJson v)) i k
        (by simpa using hi) hct.symm
  · intro v key iv ep hk he
    exact decryptPayload_encryptPayload hk he

/-- Witness for C4: a 3-byte key is rejected by encryptPayload, a 1-byte
key by decryptPayload, a wrong algorithm tag is rejected, each of the
three single-bit alterations of the concrete example envelope is
rejected, and the unaltered example envelope decrypts without error. -/
theorem c4_crypto_error_conditions_witness :
    encryptPayload (Json.num 1) [1, 2, 3] [2] = .error .cryptoError ∧
    decryptPayload exEnvelope [1] = .error .cryptoError ∧
    decryptPayload { exEnvelope with alg := "AES-CBC" } exKey =
      .error .cryptoError ∧
    decryptPayload { exEnvelope with tag := flipBit exEnvelope.tag 0 0 } exKey =
      .error .cryptoError ∧
    decryptPayload { exEnvelope with iv := flipBit exEnvelope.iv 0 3 } exKey =
      .error .cryptoError ∧
    decryptPayload
        { exEnvelope with ciphertext := flipBit exEnvelope.ciphertext 0 5 }
        exKey = .error .cryptoError ∧
    decryptPayload exEnvelope exKey = .ok Json.null :=
  ⟨c4_crypto_error_conditions.1 (Json.num 1) [1, 2, 3] [2] (by decide),
   c4_crypto_error_conditions.2.1 exEnvelope [1] (by decide),
   c4_crypto_error_conditions.2.2.1 { exEnvelope with alg := "AES-CBC" } exKey
     (by decide),
   (c4_crypto_error_conditions.2.2.2.1 Json.null exKey exIv exEnvelope 0 0
     (by decide) rfl).1 (by decide),
   (c4_crypto_error_conditions.2.2.2.1 Json.null exKey exIv exEnvelope 0 3
     (by decide) rfl).2.1 (by decide),
   (c4_crypto_error_conditions.2.2.2.1 Json.null exKey exIv exEnvelope 0 5
     (by decide) rfl).2.2 (by decide),
   c4_crypto_error_conditions.2.2.2.2 Json.null exKey exIv exEnvelope
     (by decide) rfl⟩

/-- C5: normalizeKey returns its input unchanged exactly when the input
is 32 bytes long, and returns the one-pass hash deriveKeyFromSeed of the
input otherwise. -/
theorem c5_normalizeKey_spec (b : List Nat) :
    (b.length = 32 → normalizeKey b = b) ∧
    (b.length ≠ 32 → normalizeKey b = deriveKeyFromSeed b) := by
  constructor
  · intro h
    unfold normalizeKey
    rw [if_pos h]
  · intro h
    unfold normalizeKey
    rw [if_neg h]

/-- Witness for C5 at a 32-byte input and a 2-byte input. -/
theorem c5_normalizeKey_spec_witness :
    normalizeKey (List.replicate 32 5) = List.replicate 32 5 ∧
    normalizeKey [1, 2] = deriveKeyFromSeed [1, 2] :=
  ⟨(c5_normalizeKey_spec (List.replicate 32 5)).1 (by decide),
   (c5_normalizeKey_spec [1, 2]).2 (by decide)⟩

/-- C9: getStateCommitment returns null (without raising) for every
client state and every state id — both when no program id is configured
and when one is configured — so the unconfigured case and the not-found
case are indistinguishable to callers. -/
theorem c9_getStateCommitment_always_null (st : PrivateStateClient)
    (stateId : List Nat) : getStateCommitment st stateId = .ok none := by
  unfold getStateCommitment
  cases st.config.programId <;> rfl

/-- C10: with a coordinator configured, a successful job-status response
whose body lacks a truthy status field makes getJobStatus answer PENDING
for any job id and any mock-store contents, instead of failing with
NotFoundError or consulting the mock store. -/
theorem c10_getJobStatus_falsy_status (cfg : ZkPrimeConfig)
    (url : List Nat) (reg : List (List Nat × JobDefinition))
    (jobs : List (List Nat × JobRecord)) (jobId : List Nat)
    (h : cfg.provingServiceUrl = some url) :
    getJobStatus { config := cfg, registry := reg, mockJobs := jobs } jobId
      (.ok { status := none }) = .ok .PENDING := by
  simp [getJobStatus, h]

/-- Witness for C10: a coordinator-configured client with an empty mock
store and a job id that was never submitted anywhere. -/
theorem c10_getJobStatus_falsy_status_witness :
    getJobStatus exCoordClient [120] (.ok { status := none }) =
      .ok .PENDING :=
  c10_getJobStatus_falsy_status exCoordClient.config [117] [] [] [120] rfl

/-- Helper: on the mock path, a resultRef written by the mock-result
setter decodes back to the stored envelope, so fetchResult reduces to
decrypting that envelope under the seed-hashed key. -/
theorem fetchResult_mock_ref (st : ConfidentialComputeClient)
    (jobId seed : List Nat) (resp : HttpResult ResultBody)
    (job : JobRecord) (ep : EncryptedPayload)
    (hc : st.config.provingServiceUrl = none)
    (hj : mapGet st.mockJobs jobId = some job)
    (hr : job.resultRef = some (base64Encode (encJson (resultRefPayload ep)))) :
    fetchResult st jobId seed resp =
      decryptPayload
        { alg := "AES-GCM", iv := ep.iv, ciphertext := ep.ciphertext,
          tag := ep.tag } (deriveKeyFromSeed seed) := by
  unfold fetchResult
  simp only [hc, hj, hr, base64Decode_base64Encode, decodeJson_encJson]
  simp [resultRefPayload, objGet, jStr?, keyIv, keyTag, keyCiphertext,
        base64Decode_base64Encode]

/-- C3: the mock path of fetchResult decrypts under the one-way hash
deriveKeyFromSeed of the seed, while the coordinator path of fetchResult
and decryptWithSeed (the decryption used with createState/updateState
envelopes) decrypt under normalizeKey of the seed; hence for every
32-byte seed s whose hash differs from s, the same envelope — one
encrypted under normalizeKey s — decrypts on the coordinator path but
fails with a CryptoError on the mock path. -/
theorem c3_fetchResult_key_divergence (s : List Nat) (h32 : s.length = 32)
    (hne : deriveKeyFromSeed s ≠ s) :
    deriveKeyFromSeed s ≠ normalizeKey s ∧
    ∀ (v : Json) (iv : List Nat) (ep : EncryptedPayload),
      encryptPayload v (normalizeKey s) iv = .ok ep →
      (∀ (cst : ConfidentialComputeClient) (jobId url : List Nat),
         cst.config.provingServiceUrl = some url →
         fetchResult cst jobId s
           (.ok { iv := base64Encode ep.iv,
                  ciphertext := base64Encode ep.ciphertext,
                  tag := base64Encode ep.tag }) = .ok v) ∧
      (∀ (mst : ConfidentialComputeClient) (jobId : List Nat)
         (resp : HttpResult ResultBody) (job : JobRecord),
         mst.config.provingServiceUrl = none →
         mapGet mst.mockJobs jobId = some job →
         job.resultRef = some (base64Encode (encJson (resultRefPayload ep))) →
         fetchResult mst jobId s resp = .error .cryptoError) ∧
      (∀ pst : PrivateStateClient, decryptWithSeed pst ep s = .ok v) := by
  have hnorm : normalizeKey s = s := by
    unfold normalizeKey
    rw [if_pos h32]
  have hlen : (normalizeKey s).length = 32 := normalizeKey_length s
  refine ⟨by rw [hnorm]; exact hne, ?_⟩
  intro v iv ep he
  refine ⟨?_, ?_, ?_⟩
  · intro cst jobId url hcoord
    unfold fetchResult
    rw [hcoord]
    simp only [base64Decode_base64Encode]
    rw [encryptPayload_ok v (normalizeKey s) iv hlen] at he
    injection he with he1
    subst he1
    exact decryptPayload_encryptPayload hlen
      (encryptPayload_ok v (normalizeKey s) iv hlen)
  · intro mst jobId resp job hcoord hjob href
    rw [fetchResult_mock_ref mst jobId s resp job ep hcoord hjob href]
    rw [encryptPayload_ok v (normalizeKey s) iv hlen] at he
    injection he with he1
    subst he1
    apply decryptPayload_badTag (deriveKeyFromSeed_length s) rfl
    intro hEq
    obtain ⟨hkk, -, -⟩ := gcmTag_inj hEq
    rw [hnorm] at hkk
    exact hne hkk.symm
  · intro pst
    unfold decryptWithSeed
    rw [encryptPayload_ok v (normalizeKey s) iv hlen] at he
    injection he with he1
    subst he1
    exact decryptPayload_encryptPayload hlen
      (encryptPayload_ok v (normalizeKey s) iv hlen)

/-- Witness for C3 at the all-zero 32-byte seed and the example
envelope: the two derived keys differ, the coordinator path decrypts the
envelope, the mock path rejects it with a CryptoError, and
decryptWithSeed agrees with the coordinator path. -/
theorem c3_fetchResult_key_divergence_witness :
    deriveKeyFromSeed exKey ≠ normalizeKey exKey ∧
    fetchResult exCoordClient [106] exKey
      (.ok { iv := base64Encode exEnvelope.iv,
             ciphertext := base64Encode exEnvelope.ciphertext,
             tag := base64Encode exEnvelope.tag }) = .ok Json.null ∧
    fetchResult exMockClient [106] exKey .netErr = .error .cryptoError ∧
    decryptWithSeed exPsClient exEnvelope exKey = .ok Json.null := by
  have h := c3_fetchResult_key_divergence exKey (by decide) (by decide)
  have h2 := h.2 Json.null exIv exEnvelope (by decide)
  exact ⟨h.1, h2.1 exCoordClient [106] [117] rfl,
         h2.2.1 exMockClient [106] .netErr exRec3 rfl rfl (by decide),
         h2.2.2 exPsClient⟩

/-- Helper: a successful registerJobType call changes only the
registry. -/
theorem registerJobType_ok {st st' : ConfidentialComputeClient}
    {d d' : JobDefinition} (h : registerJobType st d = .ok (st', d')) :
    st'.config = st.config ∧ st'.mockJobs = st.mockJobs := by
  unfold registerJobType at h
  by_cases hn : d.name = []
  · rw [if_pos hn] at h
    exact Except.noConfusion h
  · rw [if_neg hn] at h
    injection h with h1
    injection h1 with hA hB
    subst hA
    exact ⟨rfl, rfl⟩

/-- Helper: a successful submitJob call either leaves the mock store
unchanged (coordinator configured) or inserts one PENDING record. -/
theorem submitJob_ok_mockJobs {st st' : ConfidentialComputeClient}
    {p : SubmitJobParams} {iv : List Nat} {now : Nat}
    {wa : Option WalletAdapter} {chain : Except ZkError (List Nat)}
    {r : SubmitJobResult}
    (h : submitJob st p iv now wa chain = .ok (st', r)) :
    st'.mockJobs = st.mockJobs ∨
    ∃ (J : List Nat) (R : JobRecord), R.status = .PENDING ∧
      st'.mockJobs = mapSet st.mockJobs J R := by
  have hkey := normalizeKey_length p.symmetricKeySeed
  cases hreg : mapGet st.registry p.jobType with
  | none =>
      simp only [submitJob, hreg] at h
      exact Except.noConfusion h
  | some jd =>
      simp only [submitJob, hreg,
        encryptPayload_ok p.input (normalizeKey p.symmetricKeySeed) iv hkey]
        at h
      cases hch : chainTxResult st.config.computeProgramId wa chain with
      | error e =>
          rw [hch] at h
          exact Except.noConfusion h
      | ok txSig =>
          rw [hch] at h
          cases hpsu : st.config.provingServiceUrl with
          | some u =>
              rw [hpsu] at h
              injection h with h1
              injection h1 with hA hB
              subst hA
              exact Or.inl rfl
          | none =>
              rw [hpsu] at h
              injection h with h1
              injection h1 with hA hB
              subst hA
              exact Or.inr ⟨_, _, rfl, rfl⟩

/-- Helper: with no coordinator configured, a successful submitJob call
preserves the config and registry and inserts exactly one PENDING record
under the returned job id. -/
theorem submitJob_noCoordinator_ok {st st' : ConfidentialComputeClient}
    {p : SubmitJobParams} {iv : List Nat} {now : Nat}
    {wa : Option WalletAdapter} {chain : Except ZkError (List Nat)}
    {r : SubmitJobResult}
    (hc : st.config.provingServiceUrl = none)
    (h : submitJob st p iv now wa chain = .ok (st', r)) :
    st'.config = st.config ∧ st'.registry = st.registry ∧
    st'.mockJobs = mapSet st.mockJobs r.jobId
      { id := r.jobId, owner := p.owner, jobType := p.jobType,
        commitment := hashCommitment
          (gcmEncrypt (normalizeKey p.symmetricKeySeed) iv (encJson p.input)),
        status := .PENDING, createdAt := now, resultRef := none } := by
  have hkey := normalizeKey_length p.symmetricKeySeed
  cases hreg : mapGet st.registry p.jobType with
  | none =>
      simp only [submitJob, hreg] at h
      exact Except.noConfusion h
  | some jd =>
      simp only [submitJob, hreg,
        encryptPayload_ok p.input (normalizeKey p.symmetricKeySeed) iv hkey]
        at h
      cases hch : chainTxResult st.config.computeProgramId wa chain with
      | error e =>
          rw [hch] at h
          exact Except.noConfusion h
      | ok txSig =>
          rw [hch, hc] at h
          injection h with h1
          injection h1 with hA hB
          subst hA
          subst hB
          exact ⟨rfl, rfl, rfl⟩

/-- Helper: a successful setMockResult call found an existing record and
replaced it with a COMPLETED copy carrying the serialized payload. -/
theorem setMockResult_ok {st st' : ConfidentialComputeClient}
    {jobId : List Nat} {ep : EncryptedPayload}
    (h : setMockResult st jobId ep = .ok st') :
    ∃ record, mapGet st.mockJobs jobId = some record ∧
      st'.config = st.config ∧
      st'.mockJobs = mapSet st.mockJobs jobId
        { record with
            resultRef := some (base64Encode (encJson (resultRefPayload ep))),
            status := .COMPLETED } := by
  cases hj : mapGet st.mockJobs jobId with
  | none =>
      simp only [setMockResult, hj] at h
      exact Except.noConfusion h
  | some record =>
      simp only [setMockResult, hj] at h
      injection h with h1
      subst h1
      exact ⟨record, rfl, rfl, rfl⟩

/-- C6: submitJob for an unregistered job type fails with NotFoundError.
The failure is the same for every nonce, timestamp, wallet adapter and
chain-helper outcome — in particular even when the chain helper would
fail — so no encryption, id derivation or network call influences it,
and no successful state is produced, leaving the registry and the mock
store untouched. -/
theorem c6_submitJob_unregistered (st : ConfidentialComputeClient)
    (p : SubmitJobParams) (iv : List Nat) (now : Nat)
    (wa : Option WalletAdapter) (chain : Except ZkError (List Nat))
    (h : mapGet st.registry p.jobType = none) :
    submitJob st p iv now wa chain = .error .notFoundError := by
  unfold submitJob
  rw [h]

/-- Witness for C6: submitting job type "a" on a client with an empty
registry, with a failing chain oracle. -/
theorem c6_submitJob_unregistered_witness :
    submitJob exEmptyClient exParams [] 0 none (.error .rpcError) =
      .error .notFoundError :=
  c6_submitJob_unregistered exEmptyClient exParams [] 0 none
    (.error .rpcError) rfl

/-- C7: with no coordinator configured, every record ever present in the
mock job store of a reachable client state has status PENDING or
COMPLETED — submitJob inserts records as PENDING, the test-only setter is
the only transition and it sets COMPLETED, and no operation sequence
reaches RUNNING or FAILED on the mock path. -/
theorem c7_mock_store_status_invariant (cfg : ZkPrimeConfig)
    (hc : cfg.provingServiceUrl = none) (st : ConfidentialComputeClient)
    (hr : CCReach cfg st) :
    ∀ (k : List Nat) (r : JobRecord), mapGet st.mockJobs k = some r →
      r.status = .PENDING ∨ r.status = .COMPLETED := by
  induction hr with
  | init =>
      intro k r hkr
      exact absurd hkr (by simp [mapGet])
  | register st1 st2 d d' hre hstep ih =>
      intro k r hkr
      rw [(registerJobType_ok hstep).2] at hkr
      exact ih k r hkr
  | submit st1 st2 p iv now wa chain res hre hstep ih =>
      intro k r hkr
      rcases submitJob_ok_mockJobs hstep with hsame | ⟨J, R, hps, hmj⟩
      · rw [hsame] at hkr
        exact ih k r hkr
      · rw [hmj] at hkr
        by_cases hk : k = J
        · subst hk
          rw [mapGet_mapSet_self] at hkr
          injection hkr with h1
          rw [← h1]
          exact Or.inl hps
        · rw [mapGet_mapSet_ne st1.mockJobs J k R hk] at hkr
          exact ih k r hkr
  | setResult st1 st2 jobId ep hre hstep ih =>
      intro k r hkr
      obtain ⟨record, hrec, hcfg, hmj⟩ := setMockResult_ok hstep
      rw [hmj] at hkr
      by_cases hk : k = jobId
      · subst hk
        rw [mapGet_mapSet_self] at hkr
        injection hkr with h1
        rw [← h1]
        exact Or.inr rfl
      · rw [mapGet_mapSet_ne st1.mockJobs jobId k _ hk] at hkr
        exact ih k r hkr

set_option maxRecDepth 100000 in
/-- Witness for C7: the state reached by registering job type "a" and
submitting one job holds the example record, whose status satisfies the
invariant. -/
theorem c7_mock_store_status_invariant_witness :
    exRecord.status = .PENDING ∨ exRecord.status = .COMPLETED :=
  c7_mock_store_status_invariant exCfg rfl exState1
    (CCReach.submit exClient exState1 exParams [] 0 none (.error .rpcError)
      { jobId := exJobId, txSig := none }
      (CCReach.register { config := exCfg, registry := [], mockJobs := [] }
        exClient exJd exJd CCReach.init rfl)
      rfl)
    exJobId exRecord (by decide)

/-- C2: with no coordinator configured, a successful submitJob for a
registered job type yields a job id whose status reads PENDING from the
mock store (for every coordinator-response oracle, which is never
consulted); after the test-only setter stores an envelope encrypting a
result value under the mock-path key of a seed, the status reads
COMPLETED and fetchResult with that seed returns the original value. -/
theorem c2_mock_job_lifecycle
    (st : ConfidentialComputeClient) (p : SubmitJobParams) (iv1 : List Nat)
    (now : Nat) (chain : Except ZkError (List Nat))
    (st1 : ConfidentialComputeClient) (r : SubmitJobResult)
    (jd : JobDefinition) (R : Json) (seed iv2 : List Nat)
    (ep : EncryptedPayload) (st2 : ConfidentialComputeClient)
    (hc : st.config.provingServiceUrl = none)
    (hreg : mapGet st.registry p.jobType = some jd)
    (hsub : submitJob st p iv1 now none chain = .ok (st1, r))
    (henc : encryptPayload R (deriveKeyFromSeed seed) iv2 = .ok ep)
    (hset : setMockResult st1 r.jobId ep = .ok st2) :
    (∀ resp, getJobStatus st1 r.jobId resp = .ok .PENDING) ∧
    (∀ resp, getJobStatus st2 r.jobId resp = .ok .COMPLETED) ∧
    (∀ resp, fetchResult st2 r.jobId seed resp = .ok R) := by
  obtain ⟨hcfg1, hrg1, hmj1⟩ := submitJob_noCoordinator_ok hc hsub
  have hc1 : st1.config.provingServiceUrl = none := by
    rw [hcfg1]
    exact hc
  obtain ⟨record, hrec, hcfg2, hmj2⟩ := setMockResult_ok hset
  have hc2 : st2.config.provingServiceUrl = none := by
    rw [hcfg2]
    exact hc1
  have hget1 : mapGet st1.mockJobs r.jobId =
      some { id := r.jobId, owner := p.owner, jobType := p.jobType,
             commitment := hashCommitment (gcmEncrypt
               (normalizeKey p.symmetricKeySeed) iv1 (encJson p.input)),
             status := .PENDING, createdAt := now, resultRef := none } := by
    rw [hmj1]
    exact mapGet_mapSet_self st.mockJobs r.jobId _
  have hget2 : mapGet st2.mockJobs r.jobId =
      some { record with
               resultRef := some (base64Encode (encJson (resultRefPayload ep))),
               status := .COMPLETED } := by
    rw [hmj2]
    exact mapGet_mapSet_self st1.mockJobs r.jobId _
  refine ⟨?_, ?_, ?_⟩
  · intro resp
    simp [getJobStatus, hc1, hget1]
  · intro resp
    simp [getJobStatus, hc2, hget2]
  · intro resp
    rw [fetchResult_mock_ref st2 r.jobId seed resp _ ep hc2 hget2 rfl]
    rw [encryptPayload_ok R (deriveKeyFromSeed seed) iv2
      (deriveKeyFromSeed_length seed)] at henc
    injection henc with he1
    subst he1
    exact decryptPayload_encryptPayload (deriveKeyFromSeed_length seed)
      (encryptPayload_ok R (deriveKeyFromSeed seed) iv2
        (deriveKeyFromSeed_length seed))

set_option maxRecDepth 400000 in
/-- Witness for C2: the example submission, mock-result setting and
fetch, with the netErr response oracle showing the coordinator is never
consulted. -/
theorem c2_mock_job_lifecycle_witness :
    getJobStatus exState1 exJobId .netErr = .ok .PENDING ∧
    getJobStatus exState2 exJobId .netErr = .ok .COMPLETED ∧
    fetchResult exState2 exJobId [] .netErr = .ok (Json.num 3) := by
  have h := c2_mock_job_lifecycle exClient exParams [] 0 (.error .rpcError)
    exState1 { jobId := exJobId, txSig := none } exJd (Json.num 3) [] [8]
    exResultEp exState2 rfl rfl (by decide) (by decide) (by decide)
  exact ⟨h.1 .netErr, h.2.1 .netErr, h.2.2 .netErr⟩

/-- Helper: field values of a successful createState call. -/
theorem createState_ok_fields {st : PrivateStateClient}
    {p : CreateStateParams} {iv : List Nat} {wa : Option WalletAdapter}
    {chain : Except ZkError (List Nat)} {h : StateHandle}
    {e : EncryptedPayload}
    (hcs : createState st p iv wa chain = .ok (h, e)) :
    h.owner = p.owner ∧
    e.ciphertext = gcmEncrypt (normalizeKey p.symmetricKeySeed) iv
      (encJson p.data) ∧
    h.commitment = hashCommitment e.ciphertext ∧
    h.id = (hashCommitment (h.commitment ++ p.owner)).take 32 := by
  have hkey := normalizeKey_length p.symmetricKeySeed
  cases hreg : mapGet st.schemaRegistry p.schemaId with
  | none =>
      simp only [createState, hreg] at hcs
      exact Except.noConfusion hcs
  | some s =>
      simp only [createState, hreg,
        encryptPayload_ok p.data (normalizeKey p.symmetricKeySeed) iv hkey]
        at hcs
      cases hch : chainCallResult st.config.programId wa chain with
      | error e0 =>
          rw [hch] at hcs
          exact Except.noConfusion hcs
      | ok u =>
          rw [hch] at hcs
          injection hcs with h1
          injection h1 with hA hB
          subst hA
          subst hB
          exact ⟨rfl, rfl, rfl, rfl⟩

/-- Helper: the job id returned by a successful submitJob call. -/
theorem submitJob_ok_jobId {st st' : ConfidentialComputeClient}
    {p : SubmitJobParams} {iv : List Nat} {now : Nat}
    {wa : Option WalletAdapter} {chain : Except ZkError (List Nat)}
    {r : SubmitJobResult}
    (h : submitJob st p iv now wa chain = .ok (st', r)) :
    r.jobId = (hashCommitment (hashCommitment
      (gcmEncrypt (normalizeKey p.symmetricKeySeed) iv (encJson p.input))
        ++ p.owner)).take 32 := by
  have hkey := normalizeKey_length p.symmetricKeySeed
  cases hreg : mapGet st.registry p.jobType with
  | none =>
      simp only [submitJob, hreg] at h
      exact Except.noConfusion h
  | some jd =>
      simp only [submitJob, hreg,
        encryptPayload_ok p.input (normalizeKey p.symmetricKeySeed) iv hkey]
        at h
      cases hch : chainTxResult st.config.computeProgramId wa chain with
      | error e =>
          rw [hch] at h
          exact Except.noConfusion h
      | ok txSig =>
          rw [hch] at h
          cases hpsu : st.config.provingServiceUrl with
          | some u =>
              rw [hpsu] at h
              injection h with h1
              injection h1 with hA hB
              subst hB
              rfl
          | none =>
              rw [hpsu] at h
              injection h with h1
              injection h1 with hA hB
              subst hB
              rfl

/-- C8: the state id returned by createState equals the first 32 hex
characters of hashCommitment of the commitment concatenated with the
owner; the job id returned by submitJob is derived by the same formula
from its own commitment (the hash of the ciphertext) and owner; and the
two derivations are the same function of the inputs — identical data,
seed, nonce and owner give identical ids regardless of either client
state, with no pre-existence check. -/
theorem c8_id_derivation :
    (∀ (st : PrivateStateClient) (p : CreateStateParams) (iv : List Nat)
       (wa : Option WalletAdapter) (chain : Except ZkError (List Nat))
       (h : StateHandle) (e : EncryptedPayload),
       createState st p iv wa chain = .ok (h, e) →
       h.commitment = hashCommitment e.ciphertext ∧
       h.id = (hashCommitment (h.commitment ++ p.owner)).take 32) ∧
    (∀ (st st' : ConfidentialComputeClient) (p : SubmitJobParams)
       (iv : List Nat) (now : Nat) (wa : Option WalletAdapter)
       (chain : Except ZkError (List Nat)) (r : SubmitJobResult),
       submitJob st p iv now wa chain = .ok (st', r) →
       r.jobId = (hashCommitment (hashCommitment
         (gcmEncrypt (normalizeKey p.symmetricKeySeed) iv (encJson p.input))
           ++ p.owner)).take 32) ∧
    (∀ (st1 : PrivateStateClient) (st2 : ConfidentialComputeClient)
       (p1 : CreateStateParams) (p2 : SubmitJobParams) (iv : List Nat)
       (now : Nat) (wa1 wa2 : Option WalletAdapter)
       (ch1 ch2 : Except ZkError (List Nat)) (h : StateHandle)
       (e : EncryptedPayload) (st' : ConfidentialComputeClient)
       (r : SubmitJobResult),
       createState st1 p1 iv wa1 ch1 = .ok (h, e) →
       submitJob st2 p2 iv now wa2 ch2 = .ok (st', r) →
       p1.owner = p2.owner → p1.data = p2.input →
       p1.symmetricKeySeed = p2.symmetricKeySeed →
       h.id = r.jobId) := by
  refine ⟨?_, ?_, ?_⟩
  · intro st p iv wa chain h e hcs
    obtain ⟨-, -, hcm, hid⟩ := createState_ok_fields hcs
    exact ⟨hcm, hid⟩
  · intro st st' p iv now wa chain r h
    exact submitJob_ok_jobId h
  · intro st1 st2 p1 p2 iv now wa1 wa2 ch1 ch2 h e st' r hcs hsub ho hd hs
    obtain ⟨-, hct, hcm, hid⟩ := createState_ok_fields hcs
    rw [hid, hcm, hct, submitJob_ok_jobId hsub, ho, hd, hs]

set_option maxRecDepth 400000 in
/-- Witness for C8: the example createState and submitJob calls, run
from unrelated client states, produce a handle whose id follows the
derivation formula and coincides with the job id. -/
theorem c8_id_derivation_witness :
    exHandle.commitment = hashCommitment exEnvelope2.ciphertext ∧
    exHandle.id = (hashCommitment (exHandle.commitment ++ [111])).take 32 ∧
    exHandle.id = exJobId := by
  have h1 := c8_id_derivation.1 exPsClient2 exCreateParams [] none
    (.error .rpcError) exHandle exEnvelope2 (by decide)
  have h3 := c8_id_derivation.2.2 exPsClient2 exClient exCreateParams exParams
    [] 0 none none (.error .rpcError) (.error .rpcError) exHandle exEnvelope2
    exState1 { jobId := exJobId, txSig := none } (by decide) (by decide)
    rfl rfl rfl
  exact ⟨h1.1, h1.2, h3⟩
